import Mathlib

/-!
Verification of the generator-based cooperative scheduler
(`device/flash/lib/scheduler.py`).

The Python source is shallowly embedded:

* A task's generator body is a function `Nat → Step`: calling
  `iterator.__next__()` the `n`-th time executes the side effects
  `(body n).ops` against the scheduler and then finishes with
  `(body n).res` (yield a mask / StopIteration / ExitScheduler /
  any other exception).  The pair `(body, pos)` models the live
  iterator object; `Task.restart` replaces the iterator by a fresh
  one, i.e. resets `pos` to 0.
* Python's unbounded integers are `Nat`; bit operations use `&&&`,
  `|||`, `<<<`.
* The scheduler's mutable attributes become the fields of
  `SchedState`.  The two external hooks (failure reporting via
  `sys.print_exception` inside `handle_exception`, and `sleep`) are
  observed through the instrumentation fields `reports` and
  `sleeps`; `resumed` records each `__next__` call so that
  per-pass resume behaviour is observable.
* `list.remove` on a Python list removes the first occurrence and
  raises `ValueError` when absent: `listRemove` returns `none` in
  that case.  `Scheduler.remove` wraps both removals in
  `try/except ValueError: pass`, which is `List.erase`.
* Exceptions escaping the `while True:` loop are modelled by the
  `Option LoopExit` component of the step results.
-/

/-- Identity of a `Task` object (Python object identity). -/
abbrev TaskId := Nat

/-- Outcome of one `iterator.__next__()` call. -/
inductive StepResult where
  /-- The generator yields `mask` (line `yield mask`); `0` means stay runnable. -/
  | yield (mask : Nat)
  /-- The generator is exhausted: `StopIteration`. -/
  | done
  /-- The generator raises `ExitScheduler`. -/
  | exit
  /-- The generator raises any other exception. -/
  | error
deriving DecidableEq, Repr

/-- A scheduler call a task's body may perform while its step runs. -/
inductive SchedOp where
  /-- `task.stop()` on the task with the given identity (calls `Scheduler.remove`). -/
  | stop (t : TaskId)
  /-- `Scheduler.set_flag(f)` (merges `f` into pending flags; `wakeup` is a no-op). -/
  | set_flag (f : Nat)
deriving DecidableEq, Repr

/-- One step of a generator body: the scheduler calls it performs, then its outcome. -/
structure Step where
  ops : List SchedOp
  res : StepResult

/-- The code of a generator: what its `n`-th resumption does. -/
abbrev Body := Nat → Step

/-- The per-task attributes of `Task.__init__` (plus the class tag).
`generator` is the restartable recipe, `pos` the state of the live
`iterator` (number of `__next__` calls made on it), `mask` the wait
mask, `restarting` whether the object is a `RestartingTask`. -/
structure TaskData where
  generator : Body
  pos : Nat
  mask : Nat
  restarting : Bool

/-- The mutable state of `Scheduler` (`running`, `waiting`, `flags`,
`flag_counter`) together with the task objects and the observation
logs for the external hooks. -/
structure SchedState where
  running : List TaskId
  waiting : List TaskId
  flags : Nat
  flag_counter : Nat
  /-- Object store: the `Task` object behind each identity. -/
  tasks : TaskId → TaskData
  /-- Log of `handle_exception` calls (failure-report hook). -/
  reports : List TaskId
  /-- Log of `iterator.__next__()` calls. -/
  resumed : List TaskId
  /-- Number of `sleep()` calls (idle hook). -/
  sleeps : Nat

/-- Reason the `while True:` loop in `Scheduler.loop` terminates. -/
inductive LoopExit where
  /-- `ExitScheduler` raised by the task with this identity, re-raised by the loop. -/
  | exitScheduler (t : TaskId)
  /-- `ValueError` from an unguarded `list.remove` (line `self.running.remove(task)`). -/
  | valueError
deriving DecidableEq, Repr

namespace Sched

/-- Python `list.remove`: drop the first occurrence, `none` (= `ValueError`) if absent. -/
def listRemove (l : List TaskId) (t : TaskId) : Option (List TaskId) :=
  if t ∈ l then some (l.erase t) else none

/-- Update one task object in the store. -/
def updTask (tk : TaskId → TaskData) (t : TaskId) (f : TaskData → TaskData) :
    TaskId → TaskData :=
  fun u => if u = t then f (tk u) else tk u

/-- `Scheduler.remove`: remove the task from `running` and from `waiting`,
each wrapped in `try/except ValueError: pass`. -/
def remove (s : SchedState) (t : TaskId) : SchedState :=
  { s with running := s.running.erase t, waiting := s.waiting.erase t }

/-- `Scheduler.new_flag`: return `1 << flag_counter` and increment the counter. -/
def new_flag (s : SchedState) : Nat × SchedState :=
  (1 <<< s.flag_counter, { s with flag_counter := s.flag_counter + 1 })

/-- The flags returned by `n` successive `new_flag()` calls. -/
def newFlags : Nat → SchedState → List Nat × SchedState
  | 0, s => ([], s)
  | n + 1, s =>
    let (f, s') := new_flag s
    let (fs, s'') := newFlags n s'
    (f :: fs, s'')

/-- `Scheduler.set_flag`: `self.flags |= flag` (then `wakeup()`, a no-op). -/
def set_flag (s : SchedState) (f : Nat) : SchedState :=
  { s with flags := s.flags ||| f }

/-- `Task.stop`: `self.scheduler.remove(self)`. -/
def stopTask (s : SchedState) (t : TaskId) : SchedState :=
  remove s t

/-- `Task.restart`: remove the task, install a fresh iterator from the
same generator (`pos := 0`), append it to `running`. -/
def restart (s : SchedState) (t : TaskId) : SchedState :=
  let s1 := remove s t
  let s2 := { s1 with tasks := updTask s1.tasks t (fun d => { d with pos := 0 }) }
  { s2 with running := s2.running ++ [t] }

/-- Apply one scheduler call made from inside a task body. -/
def applyOp (s : SchedState) : SchedOp → SchedState
  | .stop t => stopTask s t
  | .set_flag f => set_flag s f

/-- Apply the calls of a step in order. -/
def applyOps (s : SchedState) : List SchedOp → SchedState
  | [] => s
  | op :: ops => applyOps (applyOp s op) ops

/-- The step the task's iterator would run next. -/
def stepOf (s : SchedState) (t : TaskId) : Step :=
  (s.tasks t).generator (s.tasks t).pos

/-- `task.iterator.__next__()`: run the body up to its next suspension
point (side effects first), advance the iterator, log the resumption;
the caller inspects the returned `StepResult`. -/
def stepTask (s : SchedState) (t : TaskId) : SchedState × StepResult :=
  let st := stepOf s t
  let s1 := applyOps s st.ops
  let s2 := { s1 with
                tasks := updTask s1.tasks t (fun d => { d with pos := d.pos + 1 }),
                resumed := s1.resumed ++ [t] }
  (s2, st.res)

/-- `Task._abort_on_error` / `RestartingTask._abort_on_error`:
report via `handle_exception`; the restarting variant then restarts. -/
def abortOnError (s : SchedState) (t : TaskId) : SchedState :=
  let s1 := { s with reports := s.reports ++ [t] }
  if (s1.tasks t).restarting then restart s1 t else s1

/-- The body of `for task in list(self.running):` for one task:
dispatch on the outcome of `__next__` exactly as the
`try/except/else` in `Scheduler.loop` does. -/
def resumeOne (s : SchedState) (t : TaskId) : SchedState × Option LoopExit :=
  let (s1, r) := stepTask s t
  match r with
  | .done => (remove s1 t, none)
  | .exit => (s1, some (.exitScheduler t))
  | .error => (abortOnError (remove s1 t) t, none)
  | .yield m =>
    if m ≠ 0 then
      match listRemove s1.running t with
      | none => (s1, some .valueError)
      | some r' =>
        ({ s1 with running := r', waiting := s1.waiting ++ [t],
                   tasks := updTask s1.tasks t (fun d => { d with mask := m }) }, none)
    else (s1, none)

/-- Iterate `resumeOne` over the snapshot `list(self.running)`;
an uncaught exception aborts the iteration. -/
def resumeList (l : List TaskId) (s : SchedState) : SchedState × Option LoopExit :=
  match l with
  | [] => (s, none)
  | t :: rest =>
    match resumeOne s t with
    | (s', none) => resumeList rest s'
    | (s', some e) => (s', some e)

/-- The waiting-set scan of the flag-merge step, over the snapshot
`list(self.waiting)`: a matching task is appended to `running` and
removed (first occurrence) from `waiting`. -/
def mergeLoop (f : Nat) (tk : TaskId → TaskData) :
    List TaskId → List TaskId × List TaskId → List TaskId × List TaskId
  | [], rw => rw
  | t :: rest, (run, wait) =>
    if f &&& (tk t).mask ≠ 0 then
      mergeLoop f tk rest (run ++ [t], wait.erase t)
    else
      mergeLoop f tk rest (run, wait)

/-- The flag-merge step of `Scheduler.loop` (lines 89–94): when pending
flags are non-zero, scan the waiting snapshot and then clear the flags;
otherwise do nothing. -/
def flagMerge (s : SchedState) : SchedState :=
  if s.flags ≠ 0 then
    let rw := mergeLoop s.flags s.tasks s.waiting (s.running, s.waiting)
    { s with running := rw.1, waiting := rw.2, flags := 0 }
  else s

/-- `Scheduler.sleep` (idle hook): observed as a counter increment. -/
def sleep (s : SchedState) : SchedState :=
  { s with sleeps := s.sleeps + 1 }

/-- One iteration of the `while True:` loop: flag-merge step, then
either the resume step over the runnable snapshot or the idle hook. -/
def schedPass (s : SchedState) : SchedState × Option LoopExit :=
  let s1 := flagMerge s
  if s1.running ≠ [] then resumeList s1.running s1 else (sleep s1, none)

/-- Run up to `n` iterations of `Scheduler.loop`; an uncaught exception
stops the loop early and is reported alongside the state at that point. -/
def runPasses : Nat → SchedState → SchedState × Option LoopExit
  | 0, s => (s, none)
  | n + 1, s =>
    match schedPass s with
    | (s', none) => runPasses n s'
    | (s', some e) => (s', some e)

/-- A body that never runs (placeholder for unused identities). -/
def inertBody : Body := fun _ => ⟨[], .done⟩

/-- A freshly constructed `Scheduler()` with an empty object store. -/
def freshSched : SchedState :=
  { running := [], waiting := [], flags := 0, flag_counter := 0,
    tasks := fun _ => ⟨inertBody, 0, 0, false⟩,
    reports := [], resumed := [], sleeps := 0 }

end Sched

namespace Sched

/-! ### Preservation lemmas about the building blocks -/

@[simp] lemma applyOp_tasks (s : SchedState) (op : SchedOp) :
    (applyOp s op).tasks = s.tasks := by
  cases op <;> rfl

@[simp] lemma applyOp_resumed (s : SchedState) (op : SchedOp) :
    (applyOp s op).resumed = s.resumed := by
  cases op <;> rfl

@[simp] lemma applyOp_reports (s : SchedState) (op : SchedOp) :
    (applyOp s op).reports = s.reports := by
  cases op <;> rfl

@[simp] lemma applyOp_sleeps (s : SchedState) (op : SchedOp) :
    (applyOp s op).sleeps = s.sleeps := by
  cases op <;> rfl

@[simp] lemma applyOps_tasks (ops : List SchedOp) : ∀ s : SchedState,
    (applyOps s ops).tasks = s.tasks := by
  induction ops with
  | nil => intro s; rfl
  | cons op rest ih => intro s; rw [applyOps, ih, applyOp_tasks]

@[simp] lemma applyOps_resumed (ops : List SchedOp) : ∀ s : SchedState,
    (applyOps s ops).resumed = s.resumed := by
  induction ops with
  | nil => intro s; rfl
  | cons op rest ih => intro s; rw [applyOps, ih, applyOp_resumed]

@[simp] lemma applyOps_reports (ops : List SchedOp) : ∀ s : SchedState,
    (applyOps s ops).reports = s.reports := by
  induction ops with
  | nil => intro s; rfl
  | cons op rest ih => intro s; rw [applyOps, ih, applyOp_reports]

@[simp] lemma applyOps_sleeps (ops : List SchedOp) : ∀ s : SchedState,
    (applyOps s ops).sleeps = s.sleeps := by
  induction ops with
  | nil => intro s; rfl
  | cons op rest ih => intro s; rw [applyOps, ih, applyOp_sleeps]

/-- An op never adds a task to `running`. -/
lemma applyOp_running_sublist (s : SchedState) (op : SchedOp) :
    (applyOp s op).running.Sublist s.running := by
  cases op with
  | stop u => exact List.erase_sublist u s.running
  | set_flag f => exact List.Sublist.refl _

lemma applyOp_waiting_sublist (s : SchedState) (op : SchedOp) :
    (applyOp s op).waiting.Sublist s.waiting := by
  cases op with
  | stop u => exact List.erase_sublist u s.waiting
  | set_flag f => exact List.Sublist.refl _

lemma applyOps_running_sublist (ops : List SchedOp) : ∀ s : SchedState,
    (applyOps s ops).running.Sublist s.running := by
  induction ops with
  | nil => intro s; exact List.Sublist.refl _
  | cons op rest ih =>
      intro s
      exact (ih (applyOp s op)).trans (applyOp_running_sublist s op)

lemma applyOps_waiting_sublist (ops : List SchedOp) : ∀ s : SchedState,
    (applyOps s ops).waiting.Sublist s.waiting := by
  induction ops with
  | nil => intro s; exact List.Sublist.refl _
  | cons op rest ih =>
      intro s
      exact (ih (applyOp s op)).trans (applyOp_waiting_sublist s op)

lemma count_le_one_not_mem_erase {l : List TaskId} {t : TaskId}
    (h : l.count t ≤ 1) : t ∉ l.erase t := by
  intro hmem
  have := List.count_erase_self t l
  have hpos : 0 < (l.erase t).count t := List.count_pos_iff.2 hmem
  omega

/-- After a `stop t` among the ops, `t` is gone from `running`
(assuming it occurred at most once there). -/
lemma applyOps_stop_not_mem_running (ops : List SchedOp) : ∀ s : SchedState,
    SchedOp.stop t ∈ ops → s.running.count t ≤ 1 →
    t ∉ (applyOps s ops).running := by
  induction ops with
  | nil => intro s h; exact absurd h (List.not_mem_nil _)
  | cons op rest ih =>
      intro s hmem hcount
      rcases List.mem_cons.1 hmem with heq | htail
      · subst heq
        have hnot : t ∉ (applyOp s (SchedOp.stop t)).running :=
          count_le_one_not_mem_erase hcount
        intro habs
        exact hnot ((applyOps_running_sublist rest _).mem habs)
      · refine ih (applyOp s op) htail ?_
        exact le_trans ((applyOp_running_sublist s op).count_le t) hcount

lemma applyOps_stop_not_mem_waiting (ops : List SchedOp) : ∀ s : SchedState,
    SchedOp.stop t ∈ ops → s.waiting.count t ≤ 1 →
    t ∉ (applyOps s ops).waiting := by
  induction ops with
  | nil => intro s h; exact absurd h (List.not_mem_nil _)
  | cons op rest ih =>
      intro s hmem hcount
      rcases List.mem_cons.1 hmem with heq | htail
      · subst heq
        have hnot : t ∉ (applyOp s (SchedOp.stop t)).waiting :=
          count_le_one_not_mem_erase hcount
        intro habs
        exact hnot ((applyOps_waiting_sublist rest _).mem habs)
      · refine ih (applyOp s op) htail ?_
        exact le_trans ((applyOp_waiting_sublist s op).count_le t) hcount

end Sched

namespace Sched

/-! ### The flag-merge scan -/

/-- Walking the waiting snapshot while erasing every matching task
partitions the waiting set: matches are appended to `running` in
iteration order, the rest keep their order in `waiting`.  `keep` is
the already-scanned non-matching prefix. -/
lemma mergeLoop_eq (f : Nat) (tk : TaskId → TaskData) :
    ∀ (l keep run : List TaskId),
      (∀ v ∈ keep, f &&& (tk v).mask = 0) →
      mergeLoop f tk l (run, keep ++ l) =
        (run ++ l.filter (fun u => decide (f &&& (tk u).mask ≠ 0)),
         keep ++ l.filter (fun u => decide (f &&& (tk u).mask = 0))) := by
  intro l
  induction l with
  | nil => intro keep run hkeep; simp [mergeLoop]
  | cons t rest ih =>
      intro keep run hkeep
      by_cases hP : f &&& (tk t).mask ≠ 0
      · have hnk : t ∉ keep := fun hmem => hP (hkeep t hmem)
        have herase : (keep ++ t :: rest).erase t = keep ++ rest := by
          rw [List.erase_append_right _ hnk, List.erase_cons_head]
        rw [mergeLoop, if_pos hP, herase, ih keep (run ++ [t]) hkeep]
        simp [List.filter_cons, hP, List.append_assoc]
      · have hz : f &&& (tk t).mask = 0 := not_not.1 hP
        have hkeep' : ∀ v ∈ keep ++ [t], f &&& (tk v).mask = 0 := by
          intro v hv
          rcases List.mem_append.1 hv with hv | hv
          · exact hkeep v hv
          · rcases List.mem_singleton.1 hv with rfl
            exact hz
        rw [mergeLoop, if_neg hP]
        have hsplit : keep ++ t :: rest = (keep ++ [t]) ++ rest := by
          simp
        rw [hsplit, ih (keep ++ [t]) run hkeep']
        simp [List.filter_cons, hz]

/-- The flag-merge step when pending flags are non-zero: move exactly
the matching waiting tasks to the back of `running`, in waiting
order, and clear the flags. -/
lemma flagMerge_eq (s : SchedState) (hf : s.flags ≠ 0) :
    flagMerge s =
      { s with
        running := s.running ++
          s.waiting.filter (fun u => decide (s.flags &&& (s.tasks u).mask ≠ 0)),
        waiting := s.waiting.filter (fun u => decide (s.flags &&& (s.tasks u).mask = 0)),
        flags := 0 } := by
  have h := mergeLoop_eq s.flags s.tasks s.waiting [] s.running (by simp)
  simp only [List.nil_append] at h
  rw [flagMerge, if_pos hf, h]

@[simp] lemma flagMerge_of_flags_zero (s : SchedState) (hf : s.flags = 0) :
    flagMerge s = s := by
  rw [flagMerge, if_neg (by simp [hf])]

@[simp] lemma flagMerge_tasks (s : SchedState) : (flagMerge s).tasks = s.tasks := by
  rw [flagMerge]; split <;> rfl

@[simp] lemma flagMerge_resumed (s : SchedState) : (flagMerge s).resumed = s.resumed := by
  rw [flagMerge]; split <;> rfl

@[simp] lemma flagMerge_reports (s : SchedState) : (flagMerge s).reports = s.reports := by
  rw [flagMerge]; split <;> rfl

@[simp] lemma flagMerge_sleeps (s : SchedState) : (flagMerge s).sleeps = s.sleeps := by
  rw [flagMerge]; split <;> rfl

/-! ### The flag allocator -/

/-- `n` successive `new_flag()` calls hand out the next `n` powers of
two and advance the counter by `n`. -/
lemma newFlags_eq (n : Nat) : ∀ s : SchedState,
    newFlags n s =
      ((List.range n).map (fun i => 2 ^ (s.flag_counter + i)),
       { s with flag_counter := s.flag_counter + n }) := by
  induction n with
  | zero => intro s; simp [newFlags]
  | succ n ih =>
      intro s
      rw [newFlags]
      simp only [new_flag, ih]
      rw [Prod.mk.injEq]
      refine ⟨?_, ?_⟩
      · rw [List.range_succ_eq_map]
        simp only [List.map_cons, List.map_map]
        rw [List.cons_eq_cons]
        refine ⟨by rw [Nat.shiftLeft_eq, one_mul, Nat.add_zero], ?_⟩
        apply List.map_congr_left
        intro i _
        simp only [Function.comp_apply]
        congr 1
        omega
      · simp only [SchedState.mk.injEq, and_true, true_and]
        omega

end Sched

namespace Sched

/-! ### Unfolding the resume step -/

lemma stepTask_eq (s : SchedState) (t : TaskId) :
    stepTask s t =
      ({ applyOps s (stepOf s t).ops with
          tasks := updTask (applyOps s (stepOf s t).ops).tasks t
            (fun d => { d with pos := d.pos + 1 }),
          resumed := (applyOps s (stepOf s t).ops).resumed ++ [t] },
       (stepOf s t).res) := rfl

@[simp] lemma stepTask_fst_resumed (s : SchedState) (t : TaskId) :
    (stepTask s t).1.resumed = s.resumed ++ [t] := by
  rw [stepTask_eq]; simp

@[simp] lemma stepTask_fst_reports (s : SchedState) (t : TaskId) :
    (stepTask s t).1.reports = s.reports := by
  rw [stepTask_eq]; simp

@[simp] lemma stepTask_fst_sleeps (s : SchedState) (t : TaskId) :
    (stepTask s t).1.sleeps = s.sleeps := by
  rw [stepTask_eq]; simp

@[simp] lemma stepTask_fst_tasks (s : SchedState) (t : TaskId) :
    (stepTask s t).1.tasks = updTask s.tasks t (fun d => { d with pos := d.pos + 1 }) := by
  rw [stepTask_eq]; simp

lemma resumeOne_eq (s : SchedState) (t : TaskId) :
    resumeOne s t =
      match (stepOf s t).res with
      | .done => (remove (stepTask s t).1 t, none)
      | .exit => ((stepTask s t).1, some (.exitScheduler t))
      | .error => (abortOnError (remove (stepTask s t).1 t) t, none)
      | .yield m =>
        if m ≠ 0 then
          match listRemove (stepTask s t).1.running t with
          | none => ((stepTask s t).1, some .valueError)
          | some r' =>
            ({ (stepTask s t).1 with
                running := r',
                waiting := (stepTask s t).1.waiting ++ [t],
                tasks := updTask (stepTask s t).1.tasks t
                  (fun d => { d with mask := m }) }, none)
        else ((stepTask s t).1, none) := rfl

lemma resumeOne_of_done (s : SchedState) (t : TaskId)
    (h : (stepOf s t).res = .done) :
    resumeOne s t = (remove (stepTask s t).1 t, none) := by
  rw [resumeOne_eq, h]

lemma resumeOne_of_exit (s : SchedState) (t : TaskId)
    (h : (stepOf s t).res = .exit) :
    resumeOne s t = ((stepTask s t).1, some (.exitScheduler t)) := by
  rw [resumeOne_eq, h]

lemma resumeOne_of_error (s : SchedState) (t : TaskId)
    (h : (stepOf s t).res = .error) :
    resumeOne s t = (abortOnError (remove (stepTask s t).1 t) t, none) := by
  rw [resumeOne_eq, h]

lemma resumeOne_of_yield_zero (s : SchedState) (t : TaskId)
    (h : (stepOf s t).res = .yield 0) :
    resumeOne s t = ((stepTask s t).1, none) := by
  rw [resumeOne_eq, h]
  simp

lemma resumeOne_of_yield_mem (s : SchedState) (t : TaskId) (m : Nat)
    (h : (stepOf s t).res = .yield m) (hm : m ≠ 0)
    (hmem : t ∈ (stepTask s t).1.running) :
    resumeOne s t =
      ({ (stepTask s t).1 with
          running := (stepTask s t).1.running.erase t,
          waiting := (stepTask s t).1.waiting ++ [t],
          tasks := updTask (stepTask s t).1.tasks t
            (fun d => { d with mask := m }) }, none) := by
  rw [resumeOne_eq, h]
  simp only [if_pos hm, listRemove, if_pos hmem]

lemma resumeOne_of_yield_not_mem (s : SchedState) (t : TaskId) (m : Nat)
    (h : (stepOf s t).res = .yield m) (hm : m ≠ 0)
    (hnm : t ∉ (stepTask s t).1.running) :
    resumeOne s t = ((stepTask s t).1, some .valueError) := by
  rw [resumeOne_eq, h]
  simp only [if_pos hm, listRemove, if_neg hnm]

@[simp] lemma remove_resumed (s : SchedState) (t : TaskId) :
    (remove s t).resumed = s.resumed := rfl

@[simp] lemma remove_reports (s : SchedState) (t : TaskId) :
    (remove s t).reports = s.reports := rfl

@[simp] lemma remove_sleeps (s : SchedState) (t : TaskId) :
    (remove s t).sleeps = s.sleeps := rfl

@[simp] lemma remove_tasks (s : SchedState) (t : TaskId) :
    (remove s t).tasks = s.tasks := rfl

@[simp] lemma restart_resumed (s : SchedState) (t : TaskId) :
    (restart s t).resumed = s.resumed := rfl

@[simp] lemma restart_sleeps (s : SchedState) (t : TaskId) :
    (restart s t).sleeps = s.sleeps := rfl

@[simp] lemma restart_reports (s : SchedState) (t : TaskId) :
    (restart s t).reports = s.reports := rfl

@[simp] lemma abortOnError_resumed (s : SchedState) (t : TaskId) :
    (abortOnError s t).resumed = s.resumed := by
  rw [abortOnError]; split <;> simp

@[simp] lemma abortOnError_sleeps (s : SchedState) (t : TaskId) :
    (abortOnError s t).sleeps = s.sleeps := by
  rw [abortOnError]; split <;> simp

@[simp] lemma resumeOne_resumed (s : SchedState) (t : TaskId) :
    (resumeOne s t).1.resumed = s.resumed ++ [t] := by
  rcases h : (stepOf s t).res with m | _ | _ | _
  · by_cases hm : m = 0
    · subst hm; rw [resumeOne_of_yield_zero s t h]; simp
    · by_cases hmem : t ∈ (stepTask s t).1.running
      · rw [resumeOne_of_yield_mem s t m h hm hmem]; simp
      · rw [resumeOne_of_yield_not_mem s t m h hm hmem]; simp
  · rw [resumeOne_of_done s t h]; simp
  · rw [resumeOne_of_exit s t h]; simp
  · rw [resumeOne_of_error s t h]; simp

@[simp] lemma resumeOne_sleeps (s : SchedState) (t : TaskId) :
    (resumeOne s t).1.sleeps = s.sleeps := by
  rcases h : (stepOf s t).res with m | _ | _ | _
  · by_cases hm : m = 0
    · subst hm; rw [resumeOne_of_yield_zero s t h]; simp
    · by_cases hmem : t ∈ (stepTask s t).1.running
      · rw [resumeOne_of_yield_mem s t m h hm hmem]; simp
      · rw [resumeOne_of_yield_not_mem s t m h hm hmem]; simp
  · rw [resumeOne_of_done s t h]; simp
  · rw [resumeOne_of_exit s t h]; simp
  · rw [resumeOne_of_error s t h]; simp

/-! ### Iterating the runnable snapshot -/

lemma resumeList_cons_exn (t : TaskId) (l : List TaskId) (s s' : SchedState)
    (e : LoopExit) (h : resumeOne s t = (s', some e)) :
    resumeList (t :: l) s = (s', some e) := by
  rw [resumeList, h]

lemma resumeList_cons_ok (t : TaskId) (l : List TaskId) (s s' : SchedState)
    (h : resumeOne s t = (s', none)) :
    resumeList (t :: l) s = resumeList l s' := by
  rw [resumeList, h]

/-- After a pass's resume step finishes without an exception, the
resumption log has grown by exactly the snapshot, in order. -/
lemma resumeList_resumed (l : List TaskId) : ∀ s : SchedState,
    (resumeList l s).2 = none →
    (resumeList l s).1.resumed = s.resumed ++ l := by
  induction l with
  | nil => intro s _; simp [resumeList]
  | cons t rest ih =>
      intro s h2
      rcases hr : resumeOne s t with ⟨s', e⟩
      cases e with
      | none =>
          rw [resumeList_cons_ok t rest s s' hr] at h2 ⊢
          rw [ih s' h2]
          have hres := resumeOne_resumed s t
          rw [hr] at hres
          simp only at hres
          rw [hres, List.append_assoc]
          rfl
      | some e =>
          rw [resumeList_cons_exn t rest s s' e hr] at h2
          simp at h2

lemma resumeList_sleeps (l : List TaskId) : ∀ s : SchedState,
    (resumeList l s).1.sleeps = s.sleeps := by
  induction l with
  | nil => intro s; simp [resumeList]
  | cons t rest ih =>
      intro s
      rcases hr : resumeOne s t with ⟨s', e⟩
      have hsl := resumeOne_sleeps s t
      rw [hr] at hsl
      simp only at hsl
      cases e with
      | none => rw [resumeList_cons_ok t rest s s' hr, ih s', hsl]
      | some e => rw [resumeList_cons_exn t rest s s' e hr]; exact hsl

/-! ### Passes of the main loop -/

lemma schedPass_of_empty (s : SchedState) (h : (flagMerge s).running = []) :
    schedPass s = (sleep (flagMerge s), none) := by
  rw [schedPass]
  simp [h]

lemma schedPass_of_nonempty (s : SchedState) (h : (flagMerge s).running ≠ []) :
    schedPass s = resumeList (flagMerge s).running (flagMerge s) := by
  rw [schedPass]
  simp [h]

lemma runPasses_cons_exn (n : Nat) (s s' : SchedState) (e : LoopExit)
    (h : schedPass s = (s', some e)) :
    runPasses (n + 1) s = (s', some e) := by
  rw [runPasses, h]

lemma runPasses_cons_ok (n : Nat) (s s' : SchedState)
    (h : schedPass s = (s', none)) :
    runPasses (n + 1) s = runPasses n s' := by
  rw [runPasses, h]

end Sched

attribute [ext] SchedState

namespace Sched

/-! ### Restart as stop + fresh submission -/

/-- Modelled from the spec's words for the `restart` equivalence:
re-submit, under the same handle, a fresh unit of work built from the
task's recipe — a fresh iterator (`pos := 0`) — and let the task
re-enter the runnable set (appended, as `Scheduler.run` appends). -/
def resubmitSpec (s : SchedState) (t : TaskId) : SchedState :=
  { s with
    tasks := updTask s.tasks t (fun d => { d with pos := 0 }),
    running := s.running ++ [t] }

@[simp] lemma updTask_apply_self (tk : TaskId → TaskData) (t : TaskId)
    (f : TaskData → TaskData) : updTask tk t f t = f (tk t) := by
  rw [updTask]; simp

lemma updTask_apply_other (tk : TaskId → TaskData) (t u : TaskId)
    (f : TaskData → TaskData) (h : u ≠ t) : updTask tk t f u = tk u := by
  rw [updTask]; simp [h]

lemma updTask_comp (tk : TaskId → TaskData) (t : TaskId)
    (f g : TaskData → TaskData) :
    updTask (updTask tk t f) t g = updTask tk t (fun d => g (f d)) := by
  funext u
  by_cases h : u = t <;> simp [updTask, h]

lemma restart_eq_stop_resubmit (s : SchedState) (t : TaskId) :
    restart s t = resubmitSpec (stopTask s t) t := rfl

/-! ### One pass of an always-failing restarting task -/

/-- A pass over a lone `RestartingTask` whose step always raises:
the flag-merge step is skipped, the step fails, the task is removed,
reported once, and restarted with a fresh iterator — the state returns
to its original shape with one more report logged. -/
lemma schedPass_alwaysFail (s : SchedState) (t : TaskId)
    (hrun : s.running = [t]) (hwait : s.waiting = []) (hfl : s.flags = 0)
    (hrs : (s.tasks t).restarting = true)
    (hb : ∀ n, (s.tasks t).generator n = ⟨[], .error⟩) :
    schedPass s =
      ({ s with reports := s.reports ++ [t],
                resumed := s.resumed ++ [t],
                tasks := updTask s.tasks t (fun d => { d with pos := 0 }) }, none) := by
  have herr : (stepOf s t).res = .error := by rw [stepOf, hb]
  have hops : (stepOf s t).ops = [] := by rw [stepOf, hb]
  have hmerge : flagMerge s = s := flagMerge_of_flags_zero s hfl
  have hne : (flagMerge s).running ≠ [] := by rw [hmerge, hrun]; simp
  rw [schedPass_of_nonempty s hne, hmerge, hrun,
      resumeList_cons_ok t [] _ _ (resumeOne_of_error s t herr), resumeList]
  rw [Prod.mk.injEq]
  refine ⟨?_, rfl⟩
  have hsA : (stepTask s t).1 =
      { s with tasks := updTask s.tasks t (fun d => { d with pos := d.pos + 1 }),
               resumed := s.resumed ++ [t] } := by
    rw [stepTask_eq, hops]
    rfl
  rw [hsA, remove]
  simp only [hrun, hwait, List.erase_cons_head, List.erase_nil]
  rw [abortOnError]
  simp only [updTask_apply_self, hrs, if_pos]
  rw [restart, remove]
  simp only [List.erase_nil, updTask_comp, List.nil_append]

/-- Running `k` passes over a lone always-failing `RestartingTask`:
no exception escapes, the failure is reported once per pass, the task
stays runnable, and after each restart its iterator is fresh. -/
lemma runPasses_alwaysFail (k : Nat) : ∀ (s : SchedState) (t : TaskId),
    s.running = [t] → s.waiting = [] → s.flags = 0 →
    (s.tasks t).restarting = true →
    (∀ n, (s.tasks t).generator n = ⟨[], .error⟩) →
    (runPasses k s).2 = none
    ∧ (runPasses k s).1.reports = s.reports ++ List.replicate k t
    ∧ (runPasses k s).1.running = [t]
    ∧ (k ≠ 0 → ((runPasses k s).1.tasks t).pos = 0) := by
  induction k with
  | zero =>
      intro s t h1 _ _ _ _
      refine ⟨rfl, by simp [runPasses], h1, fun hk => absurd rfl hk⟩
  | succ k ih =>
      intro s t h1 h2 h3 h4 h5
      have hpass := schedPass_alwaysFail s t h1 h2 h3 h4 h5
      rw [runPasses_cons_ok k s _ hpass]
      set s' : SchedState :=
        { s with reports := s.reports ++ [t],
                 resumed := s.resumed ++ [t],
                 tasks := updTask s.tasks t (fun d => { d with pos := 0 }) } with hs'
      have h1' : s'.running = [t] := h1
      have h2' : s'.waiting = [] := h2
      have h3' : s'.flags = 0 := h3
      have h4' : (s'.tasks t).restarting = true := by
        rw [hs']; simp only [updTask_apply_self]; exact h4
      have h5' : ∀ n, (s'.tasks t).generator n = ⟨[], .error⟩ := by
        intro n; rw [hs']; simp only [updTask_apply_self]; exact h5 n
      obtain ⟨g1, g2, g3, g4⟩ := ih s' t h1' h2' h3' h4' h5'
      refine ⟨g1, ?_, g3, fun _ => ?_⟩
      · rw [g2, hs']
        simp [List.replicate_succ]
      · by_cases hk : k = 0
        · subst hk
          show ((s'.tasks t)).pos = 0
          rw [hs']; simp only [updTask_apply_self]
        · exact g4 hk

end Sched

namespace Sched

@[simp] lemma stepTask_fst_running (s : SchedState) (t : TaskId) :
    (stepTask s t).1.running = (applyOps s (stepOf s t).ops).running := by
  rw [stepTask_eq]

@[simp] lemma stepTask_fst_waiting (s : SchedState) (t : TaskId) :
    (stepTask s t).1.waiting = (applyOps s (stepOf s t).ops).waiting := by
  rw [stepTask_eq]

@[simp] lemma stepTask_fst_flags (s : SchedState) (t : TaskId) :
    (stepTask s t).1.flags = (applyOps s (stepOf s t).ops).flags := by
  rw [stepTask_eq]

@[simp] lemma sleep_sleeps (s : SchedState) : (sleep s).sleeps = s.sleeps + 1 := rfl

/-! ### Concrete scenario states -/

/-- Three waiting tasks with masks 4, 1, 2; pending flags `0b11`:
tasks 1 and 2 match, task 0 does not. -/
def mergeSt : SchedState :=
  { freshSched with
    waiting := [0, 1, 2],
    flags := 3,
    tasks := fun u => ⟨inertBody, 0, if u = 0 then 4 else if u = 1 then 1 else 2, false⟩ }

/-- One waiting task with mask 1; pending flags 1. -/
def waitSt : SchedState :=
  { freshSched with
    waiting := [0],
    flags := 1,
    tasks := fun _ => ⟨inertBody, 0, 1, false⟩ }

/-- One runnable task whose first step completes immediately. -/
def doneSt : SchedState :=
  { freshSched with
    running := [0],
    tasks := fun _ => ⟨fun _ => ⟨[], .done⟩, 0, 0, false⟩ }

/-- One runnable `RestartingTask` whose every step raises an ordinary
exception. -/
def failRestartSt : SchedState :=
  { freshSched with
    running := [0],
    tasks := fun _ => ⟨fun _ => ⟨[], .error⟩, 0, 0, true⟩ }

/-! ### Claim theorems -/

/-- Claim C1: in a fresh scheduler, `n` calls of `new_flag()` return `n`
pairwise-distinct single-bit values; with pending flags `f ≠ 0` the
flag-merge step appends exactly the waiting tasks whose mask intersects
`f` to the runnable set, in waiting-set order, leaves exactly the others
waiting, and clears the pending flags; with pending flags 0 the step is
the identity. -/
theorem flag_roundtrip_C1 (n : Nat) (s : SchedState) :
    ((newFlags n freshSched).1 = (List.range n).map (fun i => 2 ^ i)
      ∧ List.Pairwise (fun a b => a ≠ b) (newFlags n freshSched).1
      ∧ ∀ g ∈ (newFlags n freshSched).1, ∃ k, g = 2 ^ k)
    ∧ (s.flags ≠ 0 →
        flagMerge s =
          { s with
            running := s.running ++
              s.waiting.filter (fun u => decide (s.flags &&& (s.tasks u).mask ≠ 0)),
            waiting := s.waiting.filter (fun u => decide (s.flags &&& (s.tasks u).mask = 0)),
            flags := 0 })
    ∧ (s.flags = 0 → flagMerge s = s) := by
  have hflags : (newFlags n freshSched).1 = (List.range n).map (fun i => 2 ^ i) := by
    rw [newFlags_eq]
    show (List.range n).map (fun i => 2 ^ (freshSched.flag_counter + i)) = _
    apply List.map_congr_left
    intro i _
    norm_num [freshSched]
  refine ⟨⟨hflags, ?_, ?_⟩, flagMerge_eq s, flagMerge_of_flags_zero s⟩
  · rw [hflags]
    exact (List.nodup_range n).map
      (fun a b h => Nat.pow_right_injective (le_refl 2) h)
  · intro g hg
    rw [hflags] at hg
    obtain ⟨i, _, hi⟩ := List.mem_map.1 hg
    exact ⟨i, hi.symm⟩

theorem flag_roundtrip_C1_witness :
    mergeSt.flags ≠ 0
    ∧ flagMerge mergeSt =
        { mergeSt with
          running := mergeSt.running ++
            mergeSt.waiting.filter (fun u => decide (mergeSt.flags &&& (mergeSt.tasks u).mask ≠ 0)),
          waiting := mergeSt.waiting.filter (fun u => decide (mergeSt.flags &&& (mergeSt.tasks u).mask = 0)),
          flags := 0 }
    ∧ flagMerge freshSched = freshSched :=
  ⟨by decide,
   (flag_roundtrip_C1 3 mergeSt).2.1 (by decide),
   (flag_roundtrip_C1 3 freshSched).2.2 rfl⟩

/-- Claim C3 counterexample: after 64 calls of `new_flag()` (the bit width
of a 64-bit flag word exhausted), the 65th call does not fail: it returns
the flag `2 ^ 64` and advances the counter to 65, so a flag is returned
and the state changes. -/
theorem new_flag_capacity_C3_cex :
    (new_flag (newFlags 64 freshSched).2).1 = 2 ^ 64
    ∧ (new_flag (newFlags 64 freshSched).2).2.flag_counter = 65 := by
  constructor
  · show 1 <<< (newFlags 64 freshSched).2.flag_counter = 2 ^ 64
    norm_num [newFlags_eq, freshSched, Nat.shiftLeft_eq]
  · show (newFlags 64 freshSched).2.flag_counter + 1 = 65
    norm_num [newFlags_eq, freshSched]

/-- Claim C3 amended: `new_flag()` never fails and enforces no capacity
limit: every call — no matter how many came before — returns
`1 << flag_counter` (i.e. `2 ^ flag_counter`, arbitrary precision) and
increments the counter, leaving the rest of the state unchanged. -/
theorem new_flag_capacity_C3_amended (s : SchedState) :
    new_flag s = (2 ^ s.flag_counter, { s with flag_counter := s.flag_counter + 1 }) := by
  rw [new_flag, Nat.shiftLeft_eq, one_mul]

/-- Claim C4 counterexample: the waiting task 0 with mask 1 is moved to the
runnable set by the flag-merge step (pending flags 1), but its wait mask is
still 1 afterwards — it is not cleared to 0 as part of the move. -/
theorem merge_mask_C4_cex :
    (flagMerge waitSt).running = [0]
    ∧ (flagMerge waitSt).waiting = []
    ∧ ((flagMerge waitSt).tasks 0).mask = 1 := by
  refine ⟨by decide, by decide, by decide⟩

/-- Claim C4 amended: the flag-merge step moves matching tasks between the
two sets but leaves every task object untouched: in particular a moved
task keeps its old wait mask (the mask is only overwritten when the task
next yields a non-zero mask). -/
theorem merge_mask_C4_amended (s : SchedState) :
    (flagMerge s).tasks = s.tasks
    ∧ ∀ t, ((flagMerge s).tasks t).mask = (s.tasks t).mask := by
  refine ⟨flagMerge_tasks s, fun t => by rw [flagMerge_tasks]⟩

/-- Claim C9 counterexample: in the pass over `doneSt` the lone runnable
task completes, so the runnable set is empty after the flag-merge and
resume steps have run, yet the idle hook is not invoked in that pass
(the sleep counter is still 0 when the next pass begins). -/
theorem idle_hook_C9_cex :
    (schedPass doneSt).1.running = []
    ∧ (schedPass doneSt).2 = none
    ∧ (schedPass doneSt).1.sleeps = 0 := by
  refine ⟨by decide, by decide, by decide⟩

/-- Claim C9 amended: the idle hook is invoked in exactly those passes
whose runnable set is empty after the flag-merge step, i.e. before the
resume step; a pass whose runnable set only empties during the resume
step does not invoke it (it is first invoked in the following pass). -/
theorem idle_hook_C9_amended (s : SchedState) :
    ((flagMerge s).running = [] →
      schedPass s = (sleep (flagMerge s), none)
      ∧ (schedPass s).1.sleeps = s.sleeps + 1)
    ∧ ((flagMerge s).running ≠ [] → (schedPass s).1.sleeps = s.sleeps) := by
  constructor
  · intro h
    refine ⟨schedPass_of_empty s h, ?_⟩
    rw [schedPass_of_empty s h]
    show (sleep (flagMerge s)).sleeps = s.sleeps + 1
    rw [sleep_sleeps, flagMerge_sleeps]
  · intro h
    rw [schedPass_of_nonempty s h, resumeList_sleeps, flagMerge_sleeps]

theorem idle_hook_C9_witness :
    (schedPass freshSched = (sleep (flagMerge freshSched), none)
      ∧ (schedPass freshSched).1.sleeps = freshSched.sleeps + 1)
    ∧ (schedPass doneSt).1.sleeps = doneSt.sleeps :=
  ⟨(idle_hook_C9_amended freshSched).1 rfl,
   (idle_hook_C9_amended doneSt).2 (by decide)⟩

end Sched

namespace Sched

/-- Claim C2: a step failure other than the hard exit is handled locally:
nothing propagates past `resumeOne`, the failure hook receives a state
from which the task has already been removed from both sets, and a
restarting hook therefore reinserts the task with single membership. -/
theorem failure_removed_before_hook_C2 (s : SchedState) (t : TaskId)
    (herr : (stepOf s t).res = .error)
    (hr : s.running.count t ≤ 1) (hw : s.waiting.count t ≤ 1) :
    (resumeOne s t).2 = none
    ∧ (∃ sMid : SchedState, resumeOne s t = (abortOnError sMid t, none)
        ∧ t ∉ sMid.running ∧ t ∉ sMid.waiting)
    ∧ ((s.tasks t).restarting = true →
        (resumeOne s t).1.running.count t = 1 ∧ t ∉ (resumeOne s t).1.waiting) := by
  have h := resumeOne_of_error s t herr
  have hrunA : (stepTask s t).1.running.count t ≤ 1 :=
    le_trans ((applyOps_running_sublist (stepOf s t).ops s).count_le t) hr
  have hwaitA : (stepTask s t).1.waiting.count t ≤ 1 :=
    le_trans ((applyOps_waiting_sublist (stepOf s t).ops s).count_le t) hw
  have hnr : t ∉ (remove (stepTask s t).1 t).running :=
    count_le_one_not_mem_erase hrunA
  have hnw : t ∉ (remove (stepTask s t).1 t).waiting :=
    count_le_one_not_mem_erase hwaitA
  refine ⟨by rw [h], ⟨remove (stepTask s t).1 t, h, hnr, hnw⟩, ?_⟩
  intro hrs
  rw [h]
  set sMid := remove (stepTask s t).1 t with hsMid
  have htr : ((( { sMid with reports := sMid.reports ++ [t] } : SchedState)).tasks t).restarting = true := by
    show ((sMid.tasks) t).restarting = true
    rw [hsMid, remove_tasks, stepTask_fst_tasks, updTask_apply_self]
    exact hrs
  have habort : abortOnError sMid t =
      restart { sMid with reports := sMid.reports ++ [t] } t := by
    rw [abortOnError, if_pos htr]
  rw [habort, restart]
  constructor
  · show (((({ sMid with reports := sMid.reports ++ [t] } : SchedState)).running.erase t) ++ [t]).count t = 1
    have : t ∉ (({ sMid with reports := sMid.reports ++ [t] } : SchedState)).running := hnr
    rw [List.erase_of_not_mem this, List.count_append]
    have hz : ((({ sMid with reports := sMid.reports ++ [t] } : SchedState)).running).count t = 0 :=
      List.count_eq_zero.2 this
    rw [hz]
    simp
  · show t ∉ (({ sMid with reports := sMid.reports ++ [t] } : SchedState)).waiting.erase t
    intro habs
    exact hnw (List.mem_of_mem_erase habs)

theorem failure_removed_before_hook_C2_witness :
    (resumeOne failRestartSt 0).2 = none
    ∧ (resumeOne failRestartSt 0).1.running.count 0 = 1
    ∧ 0 ∉ (resumeOne failRestartSt 0).1.waiting :=
  ⟨(failure_removed_before_hook_C2 failRestartSt 0 rfl (by decide) (by decide)).1,
   ((failure_removed_before_hook_C2 failRestartSt 0 rfl (by decide) (by decide)).2.2 rfl).1,
   ((failure_removed_before_hook_C2 failRestartSt 0 rfl (by decide) (by decide)).2.2 rfl).2⟩

/-- Claim C5: `ExitScheduler` raised by a step is re-raised by the loop:
it propagates out of the resume step, the failure hook is not invoked for
it (the report log is unchanged), the remaining snapshot is not resumed,
and the loop performs no further pass. -/
theorem exit_propagates_C5 (s : SchedState) (t : TaskId)
    (hexit : (stepOf s t).res = .exit) :
    (resumeOne s t).2 = some (.exitScheduler t)
    ∧ (resumeOne s t).1.reports = s.reports
    ∧ (∀ l : List TaskId,
        resumeList (t :: l) s = ((resumeOne s t).1, some (.exitScheduler t)))
    ∧ (∀ (n : Nat) (s₀ s' : SchedState),
        schedPass s₀ = (s', some (LoopExit.exitScheduler t)) →
        runPasses (n + 1) s₀ = (s', some (.exitScheduler t))) := by
  have h := resumeOne_of_exit s t hexit
  refine ⟨by rw [h], ?_, ?_, ?_⟩
  · rw [h]
    exact stepTask_fst_reports s t
  · intro l
    rw [h]
    exact resumeList_cons_exn t l s _ _ h
  · intro n s₀ s' hp
    exact runPasses_cons_exn n s₀ s' _ hp

/-- One runnable task whose first step raises `ExitScheduler`. -/
def exitSt : SchedState :=
  { freshSched with
    running := [0],
    tasks := fun _ => ⟨fun _ => ⟨[], .exit⟩, 0, 0, false⟩ }

theorem exit_propagates_C5_witness :
    (resumeOne exitSt 0).2 = some (LoopExit.exitScheduler 0)
    ∧ (resumeOne exitSt 0).1.reports = exitSt.reports
    ∧ resumeList [0, 1] exitSt = ((resumeOne exitSt 0).1, some (LoopExit.exitScheduler 0)) :=
  ⟨(exit_propagates_C5 exitSt 0 rfl).1,
   (exit_propagates_C5 exitSt 0 rfl).2.1,
   (exit_propagates_C5 exitSt 0 rfl).2.2.1 [1]⟩

/-- Claim C6: within one pass, the tasks resumed during the resume step
are exactly the runnable snapshot taken after the flag-merge step, each
exactly once, in set order — even when tasks complete, fail, are stopped
or are re-added by a restart during the pass. -/
theorem resume_once_per_pass_C6 (s : SchedState)
    (hne : (flagMerge s).running ≠ [])
    (hok : (schedPass s).2 = none) :
    (schedPass s).1.resumed = s.resumed ++ (flagMerge s).running := by
  rw [schedPass_of_nonempty s hne] at hok ⊢
  rw [resumeList_resumed _ _ hok, flagMerge_resumed]

theorem resume_once_per_pass_C6_witness :
    (schedPass failRestartSt).1.resumed
      = failRestartSt.resumed ++ (flagMerge failRestartSt).running :=
  resume_once_per_pass_C6 failRestartSt (by decide) (by decide)

/-- Claim C10: when the hard exit propagates, no cleanup is performed:
the raising task is still in the runnable set, both sets, the pending
flags and every task's wait mask are exactly as they were when the
signal was raised, and the rest of the pass leaves the state untouched. -/
theorem exit_no_cleanup_C10 (s : SchedState) (t : TaskId)
    (hexit : (stepOf s t).res = .exit) (hops : (stepOf s t).ops = [])
    (hmem : t ∈ s.running) :
    (resumeOne s t).2 = some (.exitScheduler t)
    ∧ (resumeOne s t).1.running = s.running
    ∧ t ∈ (resumeOne s t).1.running
    ∧ (resumeOne s t).1.waiting = s.waiting
    ∧ (resumeOne s t).1.flags = s.flags
    ∧ (∀ u, ((resumeOne s t).1.tasks u).mask = (s.tasks u).mask)
    ∧ (∀ l : List TaskId, (resumeList (t :: l) s).1 = (resumeOne s t).1) := by
  have h := resumeOne_of_exit s t hexit
  have hsA : (stepTask s t).1 =
      { s with tasks := updTask s.tasks t (fun d => { d with pos := d.pos + 1 }),
               resumed := s.resumed ++ [t] } := by
    rw [stepTask_eq, hops]
    rfl
  have hmask : ∀ u, ((stepTask s t).1.tasks u).mask = (s.tasks u).mask := by
    intro u
    rw [hsA]
    show ((updTask s.tasks t (fun d => { d with pos := d.pos + 1 })) u).mask = _
    by_cases hu : u = t
    · subst hu; rw [updTask_apply_self]
    · rw [updTask_apply_other _ _ _ _ hu]
  refine ⟨by rw [h], ?_, ?_, ?_, ?_, ?_, ?_⟩
  · rw [h, hsA]
  · rw [h, hsA]; exact hmem
  · rw [h, hsA]
  · rw [h, hsA]
  · intro u; rw [h]; exact hmask u
  · intro l
    rw [resumeList_cons_exn t l s _ _ h, h]

theorem exit_no_cleanup_C10_witness :
    (resumeOne exitSt 0).2 = some (LoopExit.exitScheduler 0)
    ∧ (resumeOne exitSt 0).1.running = exitSt.running
    ∧ 0 ∈ (resumeOne exitSt 0).1.running
    ∧ (resumeOne exitSt 0).1.waiting = exitSt.waiting
    ∧ (resumeOne exitSt 0).1.flags = exitSt.flags
    ∧ ((resumeOne exitSt 0).1.tasks 0).mask = (exitSt.tasks 0).mask
    ∧ (resumeList [0, 1] exitSt).1 = (resumeOne exitSt 0).1 :=
  have h := exit_no_cleanup_C10 exitSt 0 rfl rfl (by decide)
  ⟨h.1, h.2.1, h.2.2.1, h.2.2.2.1, h.2.2.2.2.1, h.2.2.2.2.2.1 0, h.2.2.2.2.2.2 [1]⟩

end Sched

namespace Sched

/-- Claim C7: `restart` equals `stop` followed by re-submitting a fresh
unit of work from the same recipe under the same handle (fresh iterator,
re-entering the runnable set); consequently a lone restarting task whose
step always fails is, over `k` passes, reported exactly once per pass,
remains runnable, and after each restart its step state is reset to the
initial position (a fresh unit-of-work instance). -/
theorem restart_semantics_C7 (s : SchedState) (t : TaskId) (k : Nat)
    (hrun : s.running = [t]) (hwait : s.waiting = []) (hfl : s.flags = 0)
    (hrs : (s.tasks t).restarting = true)
    (hb : ∀ n, (s.tasks t).generator n = ⟨[], .error⟩) :
    (∀ (s' : SchedState) (u : TaskId), restart s' u = resubmitSpec (stopTask s' u) u)
    ∧ (runPasses k s).2 = none
    ∧ (runPasses k s).1.reports = s.reports ++ List.replicate k t
    ∧ (runPasses k s).1.running = [t]
    ∧ (k ≠ 0 → ((runPasses k s).1.tasks t).pos = 0) := by
  obtain ⟨g1, g2, g3, g4⟩ := runPasses_alwaysFail k s t hrun hwait hfl hrs hb
  exact ⟨fun s' u => restart_eq_stop_resubmit s' u, g1, g2, g3, g4⟩

theorem restart_semantics_C7_witness :
    restart failRestartSt 0 = resubmitSpec (stopTask failRestartSt 0) 0
    ∧ (runPasses 3 failRestartSt).2 = none
    ∧ (runPasses 3 failRestartSt).1.reports = failRestartSt.reports ++ List.replicate 3 0
    ∧ (runPasses 3 failRestartSt).1.running = [0]
    ∧ ((runPasses 3 failRestartSt).1.tasks 0).pos = 0 :=
  have h := restart_semantics_C7 failRestartSt 0 3 rfl rfl rfl rfl (fun _ => rfl)
  ⟨h.1 failRestartSt 0, h.2.1, h.2.2.1, h.2.2.2.1, h.2.2.2.2 (by decide)⟩

/-- One runnable task whose first step stops itself and then yields the
non-zero wait mask 1. -/
def selfStopYieldSt : SchedState :=
  { freshSched with
    running := [0],
    tasks := fun _ => ⟨fun _ => ⟨[.stop 0], .yield 1⟩, 0, 0, false⟩ }

/-- Claim C8 counterexample: task 0 calls `stop` on itself during its
own step and then yields wait mask 1; the unguarded
`self.running.remove(task)` in the loop then raises `ValueError`, which
propagates out of the scheduling loop instead of the loop continuing. -/
theorem stop_midpass_C8_cex :
    (runPasses 1 selfStopYieldSt).2 = some LoopExit.valueError := by decide

/-- A task that is absent from both sets once its step's side effects
have run stays absent when that step then yields 0: the `else` clause
does nothing for a zero mask. -/
lemma resumeOne_stopped_yield0 (s : SchedState) (t : TaskId)
    (hnr : t ∉ (stepTask s t).1.running) (hnw : t ∉ (stepTask s t).1.waiting)
    (hres : (stepOf s t).res = .yield 0) :
    (resumeOne s t).2 = none
    ∧ t ∉ (resumeOne s t).1.running ∧ t ∉ (resumeOne s t).1.waiting := by
  have h := resumeOne_of_yield_zero s t hres
  exact ⟨by rw [h], by rw [h]; exact hnr, by rw [h]; exact hnw⟩

/-- A task absent from both sets after its step's side effects stays
absent when the step completes: `Scheduler.remove` only erases. -/
lemma resumeOne_stopped_done (s : SchedState) (t : TaskId)
    (hnr : t ∉ (stepTask s t).1.running) (hnw : t ∉ (stepTask s t).1.waiting)
    (hres : (stepOf s t).res = .done) :
    (resumeOne s t).2 = none
    ∧ t ∉ (resumeOne s t).1.running ∧ t ∉ (resumeOne s t).1.waiting := by
  have h := resumeOne_of_done s t hres
  refine ⟨by rw [h], ?_, ?_⟩
  · rw [h]
    intro habs
    exact hnr (List.mem_of_mem_erase habs)
  · rw [h]
    intro habs
    exact hnw (List.mem_of_mem_erase habs)

/-- A non-restarting task absent from both sets after its step's side
effects stays absent when the step fails: removal plus reporting only. -/
lemma resumeOne_stopped_error_drop (s : SchedState) (t : TaskId)
    (hnr : t ∉ (stepTask s t).1.running) (hnw : t ∉ (stepTask s t).1.waiting)
    (hres : (stepOf s t).res = .error) (hrs : (s.tasks t).restarting = false) :
    (resumeOne s t).2 = none
    ∧ t ∉ (resumeOne s t).1.running ∧ t ∉ (resumeOne s t).1.waiting := by
  have h := resumeOne_of_error s t hres
  set sMid := remove (stepTask s t).1 t with hsMid
  have hnr2 : t ∉ sMid.running := by
    intro habs; exact hnr (List.mem_of_mem_erase habs)
  have hnw2 : t ∉ sMid.waiting := by
    intro habs; exact hnw (List.mem_of_mem_erase habs)
  have hcond : ¬(((({ sMid with reports := sMid.reports ++ [t] } : SchedState)).tasks t).restarting = true) := by
    show ¬(((sMid.tasks) t).restarting = true)
    rw [hsMid, remove_tasks, stepTask_fst_tasks, updTask_apply_self, hrs]
    simp
  have habort : abortOnError sMid t =
      { sMid with reports := sMid.reports ++ [t] } := by
    rw [abortOnError, if_neg hcond]
  refine ⟨by rw [h], ?_, ?_⟩
  · rw [h, habort]
    exact hnr2
  · rw [h, habort]
    exact hnw2

/-- A restarting task absent from both sets after its step's side
effects, whose step fails, is reinserted exactly once into the runnable
set by its own restart hook, and stays out of the waiting set. -/
lemma resumeOne_stopped_error_restart (s : SchedState) (t : TaskId)
    (hnr : t ∉ (stepTask s t).1.running) (hnw : t ∉ (stepTask s t).1.waiting)
    (hres : (stepOf s t).res = .error) (hrs : (s.tasks t).restarting = true) :
    (resumeOne s t).2 = none
    ∧ (resumeOne s t).1.running.count t = 1 ∧ t ∉ (resumeOne s t).1.waiting := by
  have h := resumeOne_of_error s t hres
  set sMid := remove (stepTask s t).1 t with hsMid
  have hnr2 : t ∉ sMid.running := by
    intro habs; exact hnr (List.mem_of_mem_erase habs)
  have hnw2 : t ∉ sMid.waiting := by
    intro habs; exact hnw (List.mem_of_mem_erase habs)
  have htr : ((({ sMid with reports := sMid.reports ++ [t] } : SchedState)).tasks t).restarting = true := by
    show ((sMid.tasks) t).restarting = true
    rw [hsMid, remove_tasks, stepTask_fst_tasks, updTask_apply_self]
    exact hrs
  have habort : abortOnError sMid t =
      restart { sMid with reports := sMid.reports ++ [t] } t := by
    rw [abortOnError, if_pos htr]
  refine ⟨by rw [h], ?_, ?_⟩
  · rw [h, habort, restart]
    show ((({ sMid with reports := sMid.reports ++ [t] } : SchedState)).running.erase t ++ [t]).count t = 1
    rw [List.erase_of_not_mem (by exact hnr2), List.count_append,
        List.count_eq_zero.2 hnr2]
    simp
  · rw [h, habort, restart]
    show t ∉ (({ sMid with reports := sMid.reports ++ [t] } : SchedState)).waiting.erase t
    intro habs
    exact hnw2 (List.mem_of_mem_erase habs)

/-- Claim C8 amended: a `stop` issued during a pass — by the task on
itself or by an earlier caller — acts as a pure structural removal: the
in-flight step is not interrupted, and whenever the stopped task's step
then yields 0, completes, or fails, the scheduler loop continues without
raising and the task ends the pass outside both sets — except that a
failing restarting-variant task re-enters the runnable set exactly once,
through its own restart hook, never through the stop.  Only a step that
then yields a non-zero wait mask makes the loop raise (`ValueError`, see
the counterexample); a step raising the hard-exit signal exits the whole
scheduler by design. -/
theorem stop_midpass_C8_amended (s : SchedState) (t : TaskId)
    (hops : SchedOp.stop t ∈ (stepOf s t).ops)
    (hr : s.running.count t ≤ 1) (hw : s.waiting.count t ≤ 1) :
    (((stepOf s t).res = .yield 0 ∨ (stepOf s t).res = .done
        ∨ ((stepOf s t).res = .error ∧ (s.tasks t).restarting = false)) →
      (resumeOne s t).2 = none
      ∧ t ∉ (resumeOne s t).1.running ∧ t ∉ (resumeOne s t).1.waiting)
    ∧ ((stepOf s t).res = .error → (s.tasks t).restarting = true →
      (resumeOne s t).2 = none
      ∧ (resumeOne s t).1.running.count t = 1 ∧ t ∉ (resumeOne s t).1.waiting)
    ∧ (∀ (s' : SchedState) (u : TaskId),
        u ∉ s'.running → u ∉ s'.waiting → (stepOf s' u).ops = [] →
        (((stepOf s' u).res = .yield 0 ∨ (stepOf s' u).res = .done
            ∨ ((stepOf s' u).res = .error ∧ (s'.tasks u).restarting = false)) →
          (resumeOne s' u).2 = none
          ∧ u ∉ (resumeOne s' u).1.running ∧ u ∉ (resumeOne s' u).1.waiting)
        ∧ ((stepOf s' u).res = .error → (s'.tasks u).restarting = true →
          (resumeOne s' u).2 = none
          ∧ (resumeOne s' u).1.running.count u = 1
          ∧ u ∉ (resumeOne s' u).1.waiting)) := by
  have hnr : t ∉ (stepTask s t).1.running := by
    rw [stepTask_fst_running]
    exact applyOps_stop_not_mem_running (stepOf s t).ops s hops hr
  have hnw : t ∉ (stepTask s t).1.waiting := by
    rw [stepTask_fst_waiting]
    exact applyOps_stop_not_mem_waiting (stepOf s t).ops s hops hw
  refine ⟨?_, ?_, ?_⟩
  · rintro (hres | hres | ⟨hres, hfalse⟩)
    · exact resumeOne_stopped_yield0 s t hnr hnw hres
    · exact resumeOne_stopped_done s t hnr hnw hres
    · exact resumeOne_stopped_error_drop s t hnr hnw hres hfalse
  · intro hres htrue
    exact resumeOne_stopped_error_restart s t hnr hnw hres htrue
  · intro s' u hnrU hnwU hops'
    have hnr' : u ∉ (stepTask s' u).1.running := by
      rw [stepTask_fst_running, hops']
      exact hnrU
    have hnw' : u ∉ (stepTask s' u).1.waiting := by
      rw [stepTask_fst_waiting, hops']
      exact hnwU
    refine ⟨?_, ?_⟩
    · rintro (hres | hres | ⟨hres, hfalse⟩)
      · exact resumeOne_stopped_yield0 s' u hnr' hnw' hres
      · exact resumeOne_stopped_done s' u hnr' hnw' hres
      · exact resumeOne_stopped_error_drop s' u hnr' hnw' hres hfalse
    · intro hres htrue
      exact resumeOne_stopped_error_restart s' u hnr' hnw' hres htrue

/-- One runnable task whose first step stops itself and then yields 0. -/
def selfStopYield0St : SchedState :=
  { freshSched with
    running := [0],
    tasks := fun _ => ⟨fun _ => ⟨[.stop 0], .yield 0⟩, 0, 0, false⟩ }

/-- One runnable task whose first step stops itself and then completes. -/
def selfStopDoneSt : SchedState :=
  { freshSched with
    running := [0],
    tasks := fun _ => ⟨fun _ => ⟨[.stop 0], .done⟩, 0, 0, false⟩ }

/-- One runnable restarting task whose first step stops itself and then
raises an ordinary exception. -/
def selfStopFailSt : SchedState :=
  { freshSched with
    running := [0],
    tasks := fun _ => ⟨fun _ => ⟨[.stop 0], .error⟩, 0, 0, true⟩ }

theorem stop_midpass_C8_witness :
    ((resumeOne selfStopYield0St 0).2 = none
      ∧ 0 ∉ (resumeOne selfStopYield0St 0).1.running
      ∧ 0 ∉ (resumeOne selfStopYield0St 0).1.waiting)
    ∧ ((resumeOne selfStopDoneSt 0).2 = none
      ∧ 0 ∉ (resumeOne selfStopDoneSt 0).1.running
      ∧ 0 ∉ (resumeOne selfStopDoneSt 0).1.waiting)
    ∧ ((resumeOne selfStopFailSt 0).2 = none
      ∧ (resumeOne selfStopFailSt 0).1.running.count 0 = 1
      ∧ 0 ∉ (resumeOne selfStopFailSt 0).1.waiting) :=
  ⟨(stop_midpass_C8_amended selfStopYield0St 0 (by decide) (by decide) (by decide)).1
      (Or.inl rfl),
   (stop_midpass_C8_amended selfStopDoneSt 0 (by decide) (by decide) (by decide)).1
      (Or.inr (Or.inl rfl)),
   (stop_midpass_C8_amended selfStopFailSt 0 (by decide) (by decide) (by decide)).2.1
      rfl rfl⟩

end Sched
